import Mathlib

/-!
Shallow embedding of the inline-assembly lowering of
src/compiler/rustc_codegen_gcc/src/asm.rs (functions codegen_inline_asm,
reg_to_gcc, dummy_output_type, modifier_to_gcc, codegen_global_asm), together
with theorems about the claims of the specification.

External collaborators (layout service, symbol-naming service, gccjit
instruction stream, target feature set) are outside this file's source; they
are represented symbolically: storage types coming from the layout service are
kept as opaque tags, symbol operands carry their already-resolved linker name,
and the target-feature availability check is a Boolean parameter.
-/

/-- The set of supported architectures relevant to this backend.  All
register-class tables of the source are implemented only for X86/X86_64;
`Other` stands for any remaining architecture (used by the translation to
decide the x86-only dialect handling). -/
inductive InlineAsmArch
  | X86
  | X86_64
  | Other
  deriving DecidableEq, BEq, Repr

/-- The x86 register classes appearing in the source's match arms. -/
inductive X86RegClass
  | reg
  | reg_abcd
  | reg_byte
  | xmm_reg
  | ymm_reg
  | zmm_reg
  | kreg
  | kreg0
  | x87_reg
  | mmx_reg
  | tmm_reg
  deriving DecidableEq, BEq, Repr

/-- An explicit register: its declaration name together with its register
class (`InlineAsmReg::reg_class()` in rustc_target). -/
structure ExplicitReg where
  name : String
  cls : X86RegClass
  deriving DecidableEq, BEq, Repr

/-- `InlineAsmRegOrRegClass`: an operand's register spec is either an explicit
register or a register class. -/
inductive InlineAsmRegOrRegClass
  | Reg (r : ExplicitReg)
  | RegClass (c : X86RegClass)
  deriving DecidableEq, BEq, Repr

/-- `reg.reg_class()`: the class of a register spec. -/
def InlineAsmRegOrRegClass.reg_class : InlineAsmRegOrRegClass → X86RegClass
  | .Reg r => r.cls
  | .RegClass c => c

/-- An opaque destination storage location (`PlaceRef` in the source). -/
structure Place where
  id : Nat
  deriving DecidableEq, BEq, Repr

/-- A value flowing into the asm block (`RValue` in the source): either an
operand's immediate value, a reference to a declared local register variable,
or the address of a resolved symbol. -/
inductive RVal
  | operandVal (v : Nat)
  | varRef (tmp : Nat)
  | symAddr (name : String)
  deriving DecidableEq, BEq, Repr

/-- A gcc storage type.  Concrete scalar types are produced by
`dummy_output_type`; `ofPlace`/`ofValue` stand for the external layout
service's `layout.gcc_type` of a place or of an input value. -/
inductive GccType
  | i8
  | i16
  | i32
  | f32
  | f64
  | ofPlace (p : Place)
  | ofValue (v : RVal)
  deriving DecidableEq, BEq, Repr

/-- A declared local variable (`new_local`): identity, type, name hint and the
optional pinned register name (`set_register_name`). -/
structure Local where
  id : Nat
  ty : GccType
  name : String
  reg_name : Option String
  deriving DecidableEq, BEq, Repr

/-- `InlineAsmOperandRef`: one source operand.  Symbol operands carry the
linker name already resolved by the external symbol-naming service. -/
inductive InlineAsmOperand
  | Out (reg : InlineAsmRegOrRegClass) (late : Bool) (place : Option Place)
  | In (reg : InlineAsmRegOrRegClass) (value : RVal)
  | InOut (reg : InlineAsmRegOrRegClass) (late : Bool) (in_value : RVal) (out_place : Option Place)
  | Const (string : String)
  | SymFn (name : String)
  | SymStatic (name : String)
  deriving DecidableEq, BEq, Repr

/-- `InlineAsmTemplatePiece`: literal text or an indexed placeholder with an
optional modifier character. -/
inductive InlineAsmTemplatePiece
  | Str (s : String)
  | Placeholder (operand_idx : Nat) (modifier : Option Char)
  deriving DecidableEq, BEq, Repr

/-- The `InlineAsmOptions` bit flags used by the translation, as Booleans.
`att` models `InlineAsmOptions::ATT_SYNTAX`, `pure_flag` models `PURE`. -/
structure InlineAsmOptions where
  may_unwind : Bool
  att : Bool
  preserves_flags : Bool
  nomem : Bool
  pure_flag : Bool
  nostack : Bool
  noreturn : Bool
  deriving DecidableEq, BEq, Repr

/-- Options with every flag cleared. -/
def no_options : InlineAsmOptions :=
  ⟨false, false, false, false, false, false, false⟩

/-- `ConstraintOrRegister` of the source. -/
inductive ConstraintOrRegister
  | Constraint (s : String)
  | Register (s : String)
  deriving DecidableEq, BEq, Repr

/-- `AsmOutOperand` of the source. -/
structure AsmOutOperand where
  rust_idx : Nat
  constraint : String
  late : Bool
  readwrite : Bool
  tmp_var : Nat
  out_place : Option Place
  deriving DecidableEq, BEq, Repr

/-- `AsmOutOperand::to_constraint`: '+' for read-write else '=', an '&'
early-clobber marker when not late, then the constraint code. -/
def AsmOutOperand.to_constraint (op : AsmOutOperand) : String :=
  (if op.readwrite then "+" else "=") ++ (if op.late then "" else "&") ++ op.constraint

/-- `AsmInOperand` of the source. -/
structure AsmInOperand where
  rust_idx : Nat
  constraint : String
  val : RVal
  deriving DecidableEq, BEq, Repr

/-- Errors of a translation call.  `unwindingInlineAsm` models the
`UnwindingInlineAsm` diagnostic followed by an early return (no instruction
appended); `unimplementedTarget` models the `unimplemented!`/`unreachable!`
panics of the resolver tables; `internalBug` models `.expect(..)` failures and
out-of-range template indices. -/
inductive AsmError
  | unwindingInlineAsm
  | unimplementedTarget
  | internalBug
  deriving DecidableEq, BEq, Repr

/-- `reg_to_gcc`: converts a register spec to a GCC constraint code or an
explicit register name.  Explicit x86 registers route to the register path
(with the `st(0)` → `st` rename); classes map to their constraint code; the
source's `unimplemented!`/`unreachable!` arms are `none`. -/
def reg_to_gcc : InlineAsmRegOrRegClass → Option ConstraintOrRegister
  | .Reg r => some (.Register (if r.name = "st(0)" then "st" else r.name))
  | .RegClass c =>
    match c with
    | .reg => some (.Constraint "r")
    | .reg_abcd => some (.Constraint "Q")
    | .reg_byte => some (.Constraint "q")
    | .xmm_reg => some (.Constraint "x")
    | .ymm_reg => some (.Constraint "x")
    | .zmm_reg => some (.Constraint "v")
    | .kreg => some (.Constraint "Yk")
    | .kreg0 => none
    | .x87_reg => none
    | .mmx_reg => none
    | .tmm_reg => none

/-- `dummy_output_type` restricted to the x86 arms: the storage type used for
a discarded class-only output.  `unimplemented!` arms are `none`. -/
def dummy_output_type : X86RegClass → Option GccType
  | .reg => some .i32
  | .reg_abcd => some .i32
  | .reg_byte => some .i8
  | .mmx_reg => none
  | .xmm_reg => some .f32
  | .ymm_reg => some .f32
  | .zmm_reg => some .f32
  | .x87_reg => none
  | .kreg => some .i16
  | .kreg0 => some .i16
  | .tmm_reg => none

/-- `modifier_to_gcc` restricted to the x86 arms: the outer `Option` is
`none` on the source's `unreachable!`/`unimplemented!` arms, the inner
`Option Char` is the returned modifier. -/
def modifier_to_gcc (arch : InlineAsmArch) (cls : X86RegClass) (modifier : Option Char) :
    Option (Option Char) :=
  match cls with
  | .reg | .reg_abcd =>
    match modifier with
    | none => some (some (if arch == InlineAsmArch.X86_64 then 'q' else 'k'))
    | some 'l' => some (some 'b')
    | some 'h' => some (some 'h')
    | some 'x' => some (some 'w')
    | some 'e' => some (some 'k')
    | some 'r' => some (some 'q')
    | some _ => none
  | .reg_byte => some none
  | .xmm_reg | .ymm_reg | .zmm_reg =>
    match cls, modifier with
    | .xmm_reg, none => some (some 'x')
    | .ymm_reg, none => some (some 't')
    | .zmm_reg, none => some (some 'g')
    | _, some 'x' => some (some 'x')
    | _, some 'y' => some (some 't')
    | _, some 'z' => some (some 'g')
    | _, _ => none
  | .kreg => some none
  | .kreg0 => some none
  | .x87_reg => none
  | .mmx_reg => none
  | .tmm_reg => none

/-- `Iterator::position`: index of the first element satisfying the
predicate. -/
def list_position {α : Type} (p : α → Bool) : List α → Option Nat
  | [] => none
  | a :: l => if p a then some 0 else (list_position p l).map (· + 1)

/-- The mutable state of one `codegen_inline_asm` call: the three local
accumulators (`outputs`, `inputs`, `clobbers`), the template-length
accounting, and the instruction-stream effects so far (declared locals and
pre-asm assignments of pass 2). -/
structure St where
  outputs : List AsmOutOperand
  inputs : List AsmInOperand
  clobbers : List String
  constants_len : Nat
  locals : List Local
  assignments : List (Nat × RVal)
  deriving DecidableEq, BEq, Repr

/-- The empty state at the start of a call. -/
def St.init : St := ⟨[], [], [], 0, [], []⟩

/-- Pass 1 of the operand classifier (`// 1. Normal variables`): class-based
operands produce output/input records, discard-bound explicit-register `Out`
operands become clobbers when the register class is supported by the active
architecture and feature set (the `supported` parameter abstracts
`reg.reg_class().supported_types(asm_arch)` against the session's target
features, which live outside this source file), `Const`/symbol operands only
contribute to the length estimate; everything explicit-register is deferred
to pass 2. -/
def pass1_step (att_dialect : Bool) (supported : X86RegClass → Bool) (st : St)
    (p : Nat × InlineAsmOperand) : Except AsmError St :=
  let rust_idx := p.1
  match p.2 with
  | .Out reg late place =>
    match reg_to_gcc reg, place with
    | none, _ => .error .unimplementedTarget
    | some (.Constraint constraint), some pl =>
      let tmp_var := st.locals.length
      .ok { st with
        locals := st.locals ++ [⟨tmp_var, .ofPlace pl, "output_register", none⟩],
        outputs := st.outputs ++ [⟨rust_idx, constraint, late, false, tmp_var, some pl⟩] }
    | some (.Constraint constraint), none =>
      match dummy_output_type reg.reg_class with
      | none => .error .unimplementedTarget
      | some ty =>
        let tmp_var := st.locals.length
        .ok { st with
          locals := st.locals ++ [⟨tmp_var, ty, "output_register", none⟩],
          outputs := st.outputs ++ [⟨rust_idx, constraint, late, false, tmp_var, none⟩] }
    | some (.Register _), some _ => .ok st
    | some (.Register reg_name), none =>
      let is_target_supported := supported reg.reg_class
      if is_target_supported && !(st.clobbers.contains reg_name) then
        .ok { st with clobbers := st.clobbers ++ [reg_name] }
      else
        .ok st
  | .In reg value =>
    match reg_to_gcc reg with
    | some (.Constraint constraint) =>
      .ok { st with inputs := st.inputs ++ [⟨rust_idx, constraint, value⟩] }
    | some (.Register _) => .ok st
    | none => .error .unimplementedTarget
  | .InOut reg late in_value out_place =>
    match reg_to_gcc reg with
    | none => .error .unimplementedTarget
    | some (.Register _) => .ok st
    | some (.Constraint constraint) =>
      let tmp_var := st.locals.length
      let st : St := { st with
        locals := st.locals ++ [⟨tmp_var, .ofValue in_value, "output_register", none⟩] }
      let readwrite := out_place.isNone
      let st : St := { st with
        outputs := st.outputs ++ [⟨rust_idx, constraint, late, readwrite, tmp_var, out_place⟩] }
      if readwrite then
        .ok st
      else
        let out_gcc_idx := st.outputs.length - 1
        .ok { st with inputs := st.inputs ++ [⟨rust_idx, toString out_gcc_idx, in_value⟩] }
  | .Const s =>
    .ok { st with constants_len := st.constants_len + s.length + (if att_dialect then 1 else 0) }
  | .SymFn name =>
    .ok { st with constants_len := st.constants_len + name.length }
  | .SymStatic name =>
    .ok { st with constants_len := st.constants_len + name.length }

/-- Pass 2 of the operand classifier (`// 2. Register variables`):
explicit-register operands get a pinned local register variable and generic
`"r"` constraints; symbol operands get one `"X"` input with the resolved
address; everything else was processed in pass 1. -/
def pass2_step (st : St) (p : Nat × InlineAsmOperand) : Except AsmError St :=
  let rust_idx := p.1
  match p.2 with
  | .Out reg late place =>
    match reg_to_gcc reg with
    | some (.Register reg_name) =>
      match place with
      | none => .ok st
      | some out_place =>
        let tmp_var := st.locals.length
        let st : St := { st with
          locals := st.locals ++ [⟨tmp_var, .ofPlace out_place, "output_register", some reg_name⟩] }
        .ok { st with
          outputs := st.outputs ++ [⟨rust_idx, "r", late, false, tmp_var, some out_place⟩] }
    | some (.Constraint _) => .ok st
    | none => .error .unimplementedTarget
  | .In reg value =>
    match reg_to_gcc reg with
    | some (.Register reg_name) =>
      let reg_var := st.locals.length
      let st : St := { st with
        locals := st.locals ++ [⟨reg_var, .ofValue value, "input_register", some reg_name⟩] }
      let st : St := { st with assignments := st.assignments ++ [(reg_var, value)] }
      .ok { st with inputs := st.inputs ++ [⟨rust_idx, "r", .varRef reg_var⟩] }
    | some (.Constraint _) => .ok st
    | none => .error .unimplementedTarget
  | .InOut reg late in_value out_place =>
    match reg_to_gcc reg with
    | some (.Register reg_name) =>
      let tmp_var := st.locals.length
      let st : St := { st with
        locals := st.locals ++ [⟨tmp_var, .ofValue in_value, "output_register", some reg_name⟩] }
      let st : St := { st with
        outputs := st.outputs ++ [⟨rust_idx, "r", late, false, tmp_var, out_place⟩] }
      let constraint := toString (st.outputs.length - 1)
      .ok { st with inputs := st.inputs ++ [⟨rust_idx, constraint, in_value⟩] }
    | some (.Constraint _) => .ok st
    | none => .error .unimplementedTarget
  | .SymFn name =>
    .ok { st with inputs := st.inputs ++ [⟨rust_idx, "X", .symAddr name⟩] }
  | .SymStatic name =>
    .ok { st with inputs := st.inputs ++ [⟨rust_idx, "X", .symAddr name⟩] }
  | .Const _ => .ok st

/-- The `.att_syntax` switch-in directive prepended in AT&T dialect mode. -/
def ATT_SYNTAX_INS : String := ".att_syntax noprefix\n\t"

/-- The `.intel_syntax` switch-out directive appended in AT&T dialect mode. -/
def INTEL_SYNTAX_INS : String := "\n\t.intel_syntax noprefix"

/-- The `push_to_template` closure: a '%', the optional modifier character,
then the GCC operand index. -/
def push_to_template (modifier : Option Char) (gcc_idx : Nat) : String :=
  "%" ++ (match modifier with | some m => String.singleton m | none => "") ++ toString gcc_idx

/-- Splitting a character list at every occurrence of a separator character
(`str::split(sep)` of Rust): always yields at least one (possibly empty)
piece, one more piece per separator occurrence. -/
def split_on_char (sep : Char) : List Char → List (List Char)
  | [] => [[]]
  | c :: rest =>
    match split_on_char sep rest with
    | [] => [[]]
    | h :: t => if c == sep then [] :: h :: t else (c :: h) :: t

/-- The '%'-escaping of literal template pieces: the piece is split at every
'%' and the fragments are rejoined with a doubled `"%%"`. -/
def escape_percents (s : String) : String :=
  match (split_on_char '%' s.data).map String.mk with
  | [] => ""
  | h :: t => h ++ String.join (t.map (fun piece => "%%" ++ piece))

/-- The GCC operand index a placeholder resolves to: for `Out`/`InOut`
operands the position of the matching record in the output array, for `In`
operands the position in the input array plus the output-array length; the
`.expect("wrong rust index")` failure and non-register operands are errors
(callers only use this for register operands). -/
def placeholder_gcc_index (operands : List InlineAsmOperand) (outputs : List AsmOutOperand)
    (inputs : List AsmInOperand) (operand_idx : Nat) : Except AsmError Nat :=
  match operands[operand_idx]? with
  | some (.Out _ _ _) =>
    match list_position (fun op => operand_idx == op.rust_idx) outputs with
    | some gcc_index => .ok gcc_index
    | none => .error .internalBug
  | some (.In _ _) =>
    match list_position (fun op => operand_idx == op.rust_idx) inputs with
    | some in_gcc_index => .ok (in_gcc_index + outputs.length)
    | none => .error .internalBug
  | some (.InOut _ _ _ _) =>
    match list_position (fun op => operand_idx == op.rust_idx) outputs with
    | some gcc_index => .ok gcc_index
    | none => .error .internalBug
  | _ => .error .internalBug

/-- The text one template piece contributes (`// 3. Build the template
string`): literal pieces get their '%' characters doubled, register
placeholders become '%', modifier, GCC index, symbol placeholders become the
resolved name, constant placeholders the literal text with a '$'
immediate-value prefix in AT&T dialect mode. -/
def pieceText (arch : InlineAsmArch) (att_dialect : Bool) (operands : List InlineAsmOperand)
    (outputs : List AsmOutOperand) (inputs : List AsmInOperand) :
    InlineAsmTemplatePiece → Except AsmError String
  | .Str s => .ok (escape_percents s)
  | .Placeholder operand_idx modifier =>
    match operands[operand_idx]? with
    | none => .error .internalBug
    | some (.Out reg _ _) =>
      match modifier_to_gcc arch reg.reg_class modifier with
      | none => .error .unimplementedTarget
      | some m =>
        match placeholder_gcc_index operands outputs inputs operand_idx with
        | .error e => .error e
        | .ok gcc_index => .ok (push_to_template m gcc_index)
    | some (.In reg _) =>
      match modifier_to_gcc arch reg.reg_class modifier with
      | none => .error .unimplementedTarget
      | some m =>
        match placeholder_gcc_index operands outputs inputs operand_idx with
        | .error e => .error e
        | .ok gcc_index => .ok (push_to_template m gcc_index)
    | some (.InOut reg _ _ _) =>
      match modifier_to_gcc arch reg.reg_class modifier with
      | none => .error .unimplementedTarget
      | some m =>
        match placeholder_gcc_index operands outputs inputs operand_idx with
        | .error e => .error e
        | .ok gcc_index => .ok (push_to_template m gcc_index)
    | some (.SymFn name) => .ok name
    | some (.SymStatic name) => .ok name
    | some (.Const s) => .ok ((if att_dialect then "$" else "") ++ s)

/-- The whole rewritten template: the AT&T switch-in directive when in AT&T
dialect mode, the concatenated piece texts, then the switch-out directive. -/
def build_template_str (arch : InlineAsmArch) (att_dialect : Bool)
    (operands : List InlineAsmOperand) (outputs : List AsmOutOperand)
    (inputs : List AsmInOperand) (template : List InlineAsmTemplatePiece) :
    Except AsmError String :=
  match template.mapM (pieceText arch att_dialect operands outputs inputs) with
  | .error e => .error e
  | .ok texts =>
    .ok ((if att_dialect then ATT_SYNTAX_INS else "")
      ++ String.join texts
      ++ (if att_dialect then INTEL_SYNTAX_INS else ""))

/-- The extended-assembly instruction handed to gccjit (`// 4. Generate
Extended Asm block`): emitted output operands are `(to_constraint, tmp_var)`
pairs, emitted input operands `(constraint, value)` pairs, then the clobber
names, and the volatility flag. -/
structure ExtendedAsm where
  template_str : String
  outputs : List (String × Nat)
  inputs : List (String × RVal)
  clobbers : List String
  volatile : Bool
  deriving DecidableEq, BEq, Repr

/-- Everything one `codegen_inline_asm` call appends to the instruction
stream: the extended-assembly instruction, the raw operand buffers it was
built from, the declared locals, the pre-asm register assignments, whether a
`__builtin_unreachable` call follows, and the post-asm copies of temporaries
into bound destinations. -/
structure CodegenResult where
  asm : ExtendedAsm
  outputs : List AsmOutOperand
  inputs : List AsmInOperand
  locals : List Local
  assignments : List (Nat × RVal)
  unreachable_emitted : Bool
  stores : List (Place × Nat)
  deriving DecidableEq, BEq, Repr

/-- Whether the alternate (AT&T) dialect is active: the architecture is x86
and the `ATT_SYNTAX` option is set. -/
def att_dialect_of (arch : InlineAsmArch) (options : InlineAsmOptions) : Bool :=
  (arch == InlineAsmArch.X86 || arch == InlineAsmArch.X86_64) && options.att

/-- `codegen_inline_asm`: aborts with the unwinding diagnostic when
`MAY_UNWIND` is set, otherwise runs the two classifier passes, builds the
template string, and assembles the extended-asm instruction with the
`"cc"`/`"memory"` clobbers and volatility derived from the options. -/
def codegen_inline_asm (arch : InlineAsmArch) (supported : X86RegClass → Bool)
    (template : List InlineAsmTemplatePiece) (rust_operands : List InlineAsmOperand)
    (options : InlineAsmOptions) : Except AsmError CodegenResult :=
  if options.may_unwind then
    .error .unwindingInlineAsm
  else
    match rust_operands.enum.foldlM (pass1_step (att_dialect_of arch options) supported) St.init with
    | .error e => .error e
    | .ok st1 =>
      match rust_operands.enum.foldlM pass2_step st1 with
      | .error e => .error e
      | .ok st2 =>
        match build_template_str arch (att_dialect_of arch options) rust_operands st2.outputs st2.inputs template with
        | .error e => .error e
        | .ok template_str =>
          .ok {
            asm := {
              template_str := template_str
              outputs := st2.outputs.map (fun op => (op.to_constraint, op.tmp_var))
              inputs := st2.inputs.map (fun op => (op.constraint, op.val))
              clobbers := st2.clobbers
                ++ (if options.preserves_flags then [] else ["cc"])
                ++ (if options.nomem then [] else ["memory"])
              volatile := !options.pure_flag }
            outputs := st2.outputs
            inputs := st2.inputs
            locals := st2.locals
            assignments := st2.assignments
            unreachable_emitted := options.noreturn
            stores := st2.outputs.filterMap
              (fun op => op.out_place.map (fun place => (place, op.tmp_var))) }

/-- Whether the operand at `idx` is an `Out` or `InOut` operand. -/
def is_out_or_inout (operands : List InlineAsmOperand) (idx : Nat) : Bool :=
  match operands[idx]? with
  | some (.Out _ _ _) => true
  | some (.InOut _ _ _ _) => true
  | _ => false

/-- Whether the operand at `idx` is an `In` operand. -/
def is_in_operand (operands : List InlineAsmOperand) (idx : Nat) : Bool :=
  match operands[idx]? with
  | some (.In _ _) => true
  | _ => false

/-- Stripping one trailing carriage return from a line. -/
def strip_cr (l : List Char) : List Char :=
  match l.getLast? with
  | some c => if c == '\r' then l.dropLast else l
  | none => l

/-- `str::lines()` of Rust: split on newline characters, do not yield a final
empty piece after a trailing newline, and strip one trailing carriage return
from each line. -/
def rust_lines (s : String) : List String :=
  let parts := split_on_char '\n' s.data
  let parts := if parts.getLast? == some [] then parts.dropLast else parts
  parts.map (fun l => String.mk (strip_cr l))

/-- `line.rfind("//")`: the index of the last occurrence of two consecutive
slashes, as a character index. -/
def rfind_slashslash : List Char → Option Nat
  | [] => none
  | c :: rest =>
    match rfind_slashslash rest with
    | some i => some (i + 1)
    | none => if c == '/' && rest.head? == some '/' then some 0 else none

/-- There are two consecutive slashes at position `j` of `l`. -/
def slash_pair_at (l : List Char) (j : Nat) : Prop :=
  (l.drop j).take 2 = ['/', '/']

instance (l : List Char) (j : Nat) : Decidable (slash_pair_at l j) := by
  unfold slash_pair_at; infer_instance

/-- The comment stripping of `codegen_global_asm`: gcc does not allow inline
comments, so the line is cut at the last `//` occurrence when there is one. -/
def strip_line_comment (line : String) : String :=
  match rfind_slashslash line.toList with
  | some index => String.mk (line.toList.take index)
  | none => line

/-- A global-assembly operand (`GlobalAsmOperandRef`): symbol operands carry
the linker name already resolved by the external symbol-naming service. -/
inductive GlobalAsmOperand
  | Const (s : String)
  | SymFn (name : String)
  | SymStatic (name : String)
  deriving DecidableEq, BEq, Repr

/-- The text one template piece contributes in `codegen_global_asm`: literal
pieces are comment-stripped line by line with a newline after each line,
placeholders splice the constant text or resolved symbol name directly
(out-of-range placeholder indices are `none`, modelling the panic of the
direct indexing). -/
def global_piece_text (operands : List GlobalAsmOperand) :
    InlineAsmTemplatePiece → Option String
  | .Str s =>
    some (String.join ((rust_lines s).map (fun line => strip_line_comment line ++ "\n")))
  | .Placeholder operand_idx _ =>
    match operands[operand_idx]? with
    | none => none
    | some (.Const s) => some s
    | some (.SymFn name) => some name
    | some (.SymStatic name) => some name

/-- `codegen_global_asm`: builds the template text from the pieces, wraps it
in dialect-switch directives when AT&T dialect is selected on x86, and always
wraps the result in `.pushsection .text` / `.popsection` before handing it to
`add_top_level_asm`. -/
def codegen_global_asm (arch : InlineAsmArch) (template : List InlineAsmTemplatePiece)
    (operands : List GlobalAsmOperand) (options : InlineAsmOptions) : Option String :=
  let att_dialect := att_dialect_of arch options
  match template.mapM (global_piece_text operands) with
  | none => none
  | some texts =>
    let template_str := String.join texts
    let template_str :=
      if att_dialect then
        ".att_syntax\n\t" ++ template_str ++ "\n\t.intel_syntax noprefix"
      else
        template_str
    some (".pushsection .text\n" ++ template_str ++ "\n.popsection")

/-! Helper lemmas. -/

/-- An index found by `list_position` is a valid index. -/
theorem list_position_lt_length {α : Type} (p : α → Bool) :
    ∀ (l : List α) (i : Nat), list_position p l = some i → i < l.length := by
  intro l
  induction l with
  | nil => intro i h; simp [list_position] at h
  | cons a t ih =>
    intro i h
    unfold list_position at h
    by_cases hp : p a = true
    · rw [if_pos hp] at h
      cases h
      simp
    · rw [if_neg hp] at h
      cases hk : list_position p t with
      | none => rw [hk] at h; simp at h
      | some k =>
        rw [hk] at h
        simp at h
        have := ih k hk
        simp [List.length_cons]
        omega

/-- When `rfind_slashslash` finds nothing, there is no slash pair anywhere. -/
theorem rfind_slashslash_none :
    ∀ (l : List Char), rfind_slashslash l = none → ∀ j, ¬ slash_pair_at l j := by
  intro l
  induction l with
  | nil => intro _ j h; simp [slash_pair_at] at h
  | cons c rest ih =>
    intro h j
    unfold rfind_slashslash at h
    cases hr : rfind_slashslash rest with
    | some k => rw [hr] at h; simp at h
    | none =>
      rw [hr] at h
      by_cases hc : (c == '/' && rest.head? == some '/') = true
      · rw [if_pos hc] at h; simp at h
      · intro hp
        cases j with
        | zero =>
          cases rest with
          | nil => simp [slash_pair_at] at hp
          | cons d rest2 =>
            simp [slash_pair_at] at hp
            simp [hp.1] at hc
            exact hc hp.2
        | succ j2 =>
          have : slash_pair_at rest j2 := by
            simpa [slash_pair_at] using hp
          exact ih hr j2 this

/-- The index found by `rfind_slashslash` points at a slash pair and is the
last such position. -/
theorem rfind_slashslash_sound :
    ∀ (l : List Char) (i : Nat), rfind_slashslash l = some i →
      slash_pair_at l i ∧ ∀ j, slash_pair_at l j → j ≤ i := by
  intro l
  induction l with
  | nil => intro i h; simp [rfind_slashslash] at h
  | cons c rest ih =>
    intro i h
    unfold rfind_slashslash at h
    cases hr : rfind_slashslash rest with
    | some k =>
      rw [hr] at h
      simp at h
      obtain ⟨hp, hmax⟩ := ih k hr
      constructor
      · rw [← h]
        simpa [slash_pair_at] using hp
      · intro j hj
        cases j with
        | zero => omega
        | succ j2 =>
          have : slash_pair_at rest j2 := by simpa [slash_pair_at] using hj
          have := hmax j2 this
          omega
    | none =>
      rw [hr] at h
      by_cases hc : (c == '/' && rest.head? == some '/') = true
      · rw [if_pos hc] at h
        simp at h
        simp at hc
        constructor
        · rw [← h]
          cases rest with
          | nil => simp at hc
          | cons d rest2 =>
            simp at hc
            simp [slash_pair_at, hc.1, hc.2]
        · intro j hj
          cases j with
          | zero => omega
          | succ j2 =>
            have : slash_pair_at rest j2 := by simpa [slash_pair_at] using hj
            exact absurd this (rfind_slashslash_none rest hr j2)
      · rw [if_neg hc] at h
        simp at h

/-! Claim theorems. -/

/-- Claim C1, counterexample: for the single operand `InOut(class reg)` with
an input value and a bound destination (late flag clear), template
consisting of the placeholder `%0`, on x86_64 where class `reg` resolves to
constraint code `r`, the translation does NOT produce one `"+r"` output with
empty inputs and the unchanged template `"%0"`: it produces one `"=&r"`
output, one tied input, and the template `"%q0"`. -/
theorem claim_C1_counterexample :
    (codegen_inline_asm .X86_64 (fun _ => true) [.Placeholder 0 none]
        [.InOut (.RegClass .reg) false (.operandVal 0) (some ⟨0⟩)] no_options).toOption.map
        (fun r => (r.asm.outputs.map Prod.fst, r.inputs.length, r.asm.template_str))
      = some (["=&r"], 1, "%q0")
    ∧ (codegen_inline_asm .X86_64 (fun _ => true) [.Placeholder 0 none]
        [.InOut (.RegClass .reg) false (.operandVal 0) (some ⟨0⟩)] no_options).toOption.map
        (fun r => (r.asm.outputs.map Prod.fst, r.inputs.length, r.asm.template_str))
      ≠ some (["+r"], 0, "%0") := by
  constructor
  · rfl
  · decide

/-- Claim C1, amended: for the single operand `InOut(class reg)` with an
input value, a discarded (absent) destination and the late flag set, template
consisting of the placeholder `%0`, on x86_64 where class `reg` resolves to
constraint code `r`: the produced output array is exactly one record whose
constraint string is `"+r"`, the input array is empty, and the rewritten
template string is `"%q0"` (the rewriter adds the default 'q' sub-register
modifier to an unmodified x86_64 general-register placeholder). -/
theorem claim_C1_amended :
    (codegen_inline_asm .X86_64 (fun _ => true) [.Placeholder 0 none]
        [.InOut (.RegClass .reg) true (.operandVal 0) none] no_options).toOption.map
        (fun r => (r.asm.outputs.map Prod.fst, r.inputs, r.asm.template_str))
      = some (["+r"], [], "%q0") := by
  rfl

/-- Claim C2: with `In(class reg_byte) a` at source index 0 and
`Out(class reg_byte) b` at source index 1 and template `"%0 %1"`, the output
array holds exactly the one record produced from `b` (source index 1), the
input array exactly the one record produced from `a` (source index 0),
placeholder `%0` rewrites to GCC index 1 (input position 0 plus one output)
and placeholder `%1` rewrites to GCC index 0. -/
theorem claim_C2 :
    (codegen_inline_asm .X86_64 (fun _ => true)
        [.Placeholder 0 none, .Str " ", .Placeholder 1 none]
        [.In (.RegClass .reg_byte) (.operandVal 1),
         .Out (.RegClass .reg_byte) false (some ⟨0⟩)]
        no_options).toOption.map
        (fun r => (r.outputs, r.inputs, r.asm.template_str))
      = some ([⟨1, "q", false, false, 0, some ⟨0⟩⟩],
              [⟨0, "q", .operandVal 1⟩],
              "%1 %0") := by
  rfl

/-- Claim C5, evaluation at the failing input: for the single operand
`inout("eax") v => _` (discard-bound explicit-register InOut) with the
register class available, the translation pushes one output record
(emitted constraint `"=&r"`) and one tied input record into the operand
arrays and does not add `"eax"` to the clobber list — contradicting the
source's own comment that clobbers are collected from
`inout("expl_reg") var => _`. -/
theorem claim_C5_failing_eval :
    (codegen_inline_asm .X86_64 (fun _ => true) []
        [.InOut (.Reg ⟨"eax", .reg⟩) false (.operandVal 0) none] no_options).toOption.map
        (fun r => (r.outputs.length, r.asm.outputs, r.inputs, r.asm.clobbers))
      = some (1, [("=&r", 0)], [⟨0, "0", .operandVal 0⟩], ["cc", "memory"]) := by
  rfl

/-- Claim C6: whenever the may-unwind option is set, the translation reports
the unwinding-inline-asm diagnostic and aborts without appending an
extended-assembly instruction, for every architecture, operand list and
template — in particular before either classification pass could fail. -/
theorem claim_C6 (arch : InlineAsmArch) (supported : X86RegClass → Bool)
    (template : List InlineAsmTemplatePiece) (operands : List InlineAsmOperand)
    (options : InlineAsmOptions) (h : options.may_unwind = true) :
    codegen_inline_asm arch supported template operands options
      = .error .unwindingInlineAsm := by
  simp [codegen_inline_asm, h]

/-- Witness for claim C6 at a concrete input. -/
theorem claim_C6_witness :
    codegen_inline_asm .X86_64 (fun _ => true) [.Placeholder 0 none]
        [.In (.RegClass .reg) (.operandVal 0)] { no_options with may_unwind := true }
      = .error .unwindingInlineAsm :=
  claim_C6 .X86_64 (fun _ => true) [.Placeholder 0 none]
    [.In (.RegClass .reg) (.operandVal 0)] { no_options with may_unwind := true } rfl

/-- Claim C3: for every class-based InOut operand (class resolving to
constraint code `c`), processing it in pass 1 with destination absent appends
exactly one read-write output record (constraint `c`) and no input record;
with a destination present it appends exactly one (write-only) output record
plus exactly one tied input record whose constraint string is the decimal
text of that output's GCC target index (its position in the output array). -/
theorem claim_C3 (att_dialect : Bool) (supported : X86RegClass → Bool) (st : St)
    (rust_idx : Nat) (reg : InlineAsmRegOrRegClass) (late : Bool) (in_value : RVal)
    (c : String) (pl : Place)
    (h : reg_to_gcc reg = some (.Constraint c)) :
    pass1_step att_dialect supported st (rust_idx, .InOut reg late in_value none)
      = .ok { st with
          locals := st.locals
            ++ [⟨st.locals.length, .ofValue in_value, "output_register", none⟩],
          outputs := st.outputs
            ++ [⟨rust_idx, c, late, true, st.locals.length, none⟩] }
    ∧ pass1_step att_dialect supported st (rust_idx, .InOut reg late in_value (some pl))
      = .ok { st with
          locals := st.locals
            ++ [⟨st.locals.length, .ofValue in_value, "output_register", none⟩],
          outputs := st.outputs
            ++ [⟨rust_idx, c, late, false, st.locals.length, some pl⟩],
          inputs := st.inputs
            ++ [⟨rust_idx, toString st.outputs.length, in_value⟩] } := by
  constructor
  · simp [pass1_step, h]
  · simp [pass1_step, h]

/-- Witness for claim C3 at a concrete input. -/
theorem claim_C3_witness :
    pass1_step false (fun _ => true) St.init
        (0, .InOut (.RegClass .reg) false (.operandVal 7) none)
      = .ok { St.init with
          locals := [⟨0, .ofValue (.operandVal 7), "output_register", none⟩],
          outputs := [⟨0, "r", false, true, 0, none⟩] }
    ∧ pass1_step false (fun _ => true) St.init
        (0, .InOut (.RegClass .reg) false (.operandVal 7) (some ⟨3⟩))
      = .ok { St.init with
          locals := [⟨0, .ofValue (.operandVal 7), "output_register", none⟩],
          outputs := [⟨0, "r", false, false, 0, some ⟨3⟩⟩],
          inputs := [⟨0, "0", .operandVal 7⟩] } :=
  claim_C3 false (fun _ => true) St.init 0 (.RegClass .reg) false (.operandVal 7) "r" ⟨3⟩ rfl

/-- Claim C4: a template placeholder index resolved on an `Out`/`InOut`
operand is a position inside the (fully populated) output array, and one
resolved on an `In` operand is at least the output-array length — outputs
strictly precede inputs in GCC target index space. -/
theorem claim_C4 (operands : List InlineAsmOperand) (outputs : List AsmOutOperand)
    (inputs : List AsmInOperand) (idx g : Nat)
    (h : placeholder_gcc_index operands outputs inputs idx = .ok g) :
    (is_out_or_inout operands idx = true → g < outputs.length)
    ∧ (is_in_operand operands idx = true → outputs.length ≤ g) := by
  unfold placeholder_gcc_index at h
  cases hop : operands[idx]? with
  | none => rw [hop] at h; simp at h
  | some op =>
    rw [hop] at h
    cases op with
    | Out reg late place =>
      cases hpos : list_position (fun op => idx == op.rust_idx) outputs with
      | none => rw [hpos] at h; simp at h
      | some k =>
        rw [hpos] at h
        simp at h
        constructor
        · intro _
          rw [← h]
          exact list_position_lt_length _ outputs k hpos
        · intro hin
          simp [is_in_operand, hop] at hin
    | In reg value =>
      cases hpos : list_position (fun op => idx == op.rust_idx) inputs with
      | none => rw [hpos] at h; simp at h
      | some k =>
        rw [hpos] at h
        simp at h
        constructor
        · intro hout
          simp [is_out_or_inout, hop] at hout
        · intro _
          omega
    | InOut reg late in_value out_place =>
      cases hpos : list_position (fun op => idx == op.rust_idx) outputs with
      | none => rw [hpos] at h; simp at h
      | some k =>
        rw [hpos] at h
        simp at h
        constructor
        · intro _
          rw [← h]
          exact list_position_lt_length _ outputs k hpos
        · intro hin
          simp [is_in_operand, hop] at hin
    | Const s => simp at h
    | SymFn name => simp at h
    | SymStatic name => simp at h

/-- Witness for claim C4 at a concrete input. -/
theorem claim_C4_witness :
    (is_out_or_inout [.In (.RegClass .reg) (.operandVal 0)] 0 = true
      → 0 < ([] : List AsmOutOperand).length)
    ∧ (is_in_operand [.In (.RegClass .reg) (.operandVal 0)] 0 = true
      → ([] : List AsmOutOperand).length ≤ 0) :=
  claim_C4 [.In (.RegClass .reg) (.operandVal 0)] [] [⟨0, "r", .operandVal 0⟩] 0 0 rfl

/-- Claim C7: every successfully emitted extended-assembly instruction's
clobber list contains `"cc"` unless the preserves-flags option is set, and
`"memory"` unless the no-memory option is set. -/
theorem claim_C7 (arch : InlineAsmArch) (supported : X86RegClass → Bool)
    (template : List InlineAsmTemplatePiece) (operands : List InlineAsmOperand)
    (options : InlineAsmOptions) (r : CodegenResult)
    (h : codegen_inline_asm arch supported template operands options = .ok r) :
    (options.preserves_flags = false → "cc" ∈ r.asm.clobbers)
    ∧ (options.nomem = false → "memory" ∈ r.asm.clobbers) := by
  unfold codegen_inline_asm at h
  split at h
  · exact absurd h (by simp)
  · split at h
    · exact absurd h (by simp)
    · split at h
      · exact absurd h (by simp)
      · split at h
        · exact absurd h (by simp)
        · injection h with h2
          constructor
          · intro hopt
            rw [← h2]
            simp [hopt]
          · intro hopt
            rw [← h2]
            simp [hopt]

/-- Witness for claim C7 at a concrete input. -/
theorem claim_C7_witness :
    ((no_options).preserves_flags = false
      → "cc" ∈ (⟨⟨"", [], [], ["cc", "memory"], true⟩, [], [], [], [], false, []⟩
          : CodegenResult).asm.clobbers)
    ∧ ((no_options).nomem = false
      → "memory" ∈ (⟨⟨"", [], [], ["cc", "memory"], true⟩, [], [], [], [], false, []⟩
          : CodegenResult).asm.clobbers) :=
  claim_C7 .X86_64 (fun _ => true) [] [] no_options
    ⟨⟨"", [], [], ["cc", "memory"], true⟩, [], [], [], [], false, []⟩ rfl

/-- Claim C8: when the AT&T dialect option is set on a supporting (x86 or
x86_64) architecture, the rewritten template of a successful translation is
the dialect-switch-in directive, the piece texts, then the dialect-switch-out
directive — so it starts with the switch-in and ends with the switch-out —
and every constant-operand placeholder substitution is prefixed with the
immediate-value sigil '$'. -/
theorem claim_C8 (arch : InlineAsmArch) (supported : X86RegClass → Bool)
    (template : List InlineAsmTemplatePiece) (operands : List InlineAsmOperand)
    (options : InlineAsmOptions) (r : CodegenResult) (texts : List String)
    (cidx : Nat) (cs : String) (cmod : Option Char)
    (harch : arch = .X86 ∨ arch = .X86_64)
    (hatt : options.att = true)
    (h : codegen_inline_asm arch supported template operands options = .ok r)
    (hm : template.mapM (pieceText arch true operands r.outputs r.inputs) = .ok texts)
    (hc : operands[cidx]? = some (.Const cs)) :
    r.asm.template_str = ATT_SYNTAX_INS ++ String.join texts ++ INTEL_SYNTAX_INS
    ∧ pieceText arch true operands r.outputs r.inputs (.Placeholder cidx cmod)
        = .ok ("$" ++ cs) := by
  have hd : att_dialect_of arch options = true := by
    cases harch with
    | inl h1 => subst h1; simp [att_dialect_of, hatt]; decide
    | inr h1 => subst h1; simp [att_dialect_of, hatt]; decide
  constructor
  · unfold codegen_inline_asm at h
    split at h
    · exact absurd h (by simp)
    · split at h
      · exact absurd h (by simp)
      · split at h
        · exact absurd h (by simp)
        · split at h
          · exact absurd h (by simp)
          · rename_i st1 hp1 st2 hp2 tstr htpl
            injection h with h2
            subst h2
            rw [hd] at htpl
            unfold build_template_str at htpl
            simp only at hm
            rw [hm] at htpl
            simp at htpl
            simp [← htpl]
  · simp [pieceText, hc]

/-- Witness for claim C8 at a concrete input. -/
theorem claim_C8_witness :
    (⟨⟨".att_syntax noprefix\n\t$5\n\t.intel_syntax noprefix", [], [],
        ["cc", "memory"], true⟩, [], [], [], [], false, []⟩
      : CodegenResult).asm.template_str
      = ATT_SYNTAX_INS ++ String.join ["$5"] ++ INTEL_SYNTAX_INS
    ∧ pieceText .X86_64 true [.Const "5"] [] [] (.Placeholder 0 none)
        = .ok ("$" ++ "5") :=
  claim_C8 .X86_64 (fun _ => true) [.Placeholder 0 none] [.Const "5"]
    { no_options with att := true }
    ⟨⟨".att_syntax noprefix\n\t$5\n\t.intel_syntax noprefix", [], [],
        ["cc", "memory"], true⟩, [], [], [], [], false, []⟩
    ["$5"] 0 "5" none (Or.inr rfl) rfl rfl rfl rfl

/-- Claim C9: a successful global-assembly translation is always wrapped in
the section-push and section-pop directives, contains the concatenated piece
texts (optionally wrapped in dialect-switch directives), literal pieces are
processed line by line with the comment stripping applied to each line, and
the comment stripping cuts the line exactly at the last position carrying two
consecutive slashes. -/
theorem claim_C9 (arch : InlineAsmArch) (template : List InlineAsmTemplatePiece)
    (operands : List GlobalAsmOperand) (options : InlineAsmOptions) (r : String)
    (texts : List String) (s : String) (l : List Char) (i j : Nat)
    (h : codegen_global_asm arch template operands options = some r)
    (hm : template.mapM (global_piece_text operands) = some texts)
    (hr : rfind_slashslash l = some i)
    (hj : slash_pair_at l j) :
    r = ".pushsection .text\n"
        ++ (if att_dialect_of arch options then
              ".att_syntax\n\t" ++ String.join texts ++ "\n\t.intel_syntax noprefix"
            else String.join texts)
        ++ "\n.popsection"
    ∧ global_piece_text operands (.Str s)
        = some (String.join ((rust_lines s).map (fun line => strip_line_comment line ++ "\n")))
    ∧ strip_line_comment (String.mk l) = String.mk (l.take i)
    ∧ slash_pair_at l i
    ∧ j ≤ i := by
  refine ⟨?_, rfl, ?_, (rfind_slashslash_sound l i hr).1,
    (rfind_slashslash_sound l i hr).2 j hj⟩
  · simp only [codegen_global_asm] at h
    rw [hm] at h
    simp at h
    rw [← h]
  · unfold strip_line_comment
    simp only [String.toList]
    rw [hr]

/-- Witness for claim C9 at a concrete input. -/
theorem claim_C9_witness :
    ".pushsection .text\nmov eax, 1 \nfoo\n.popsection"
      = ".pushsection .text\n"
        ++ (if att_dialect_of .X86_64 no_options then
              ".att_syntax\n\t" ++ String.join ["mov eax, 1 \n", "foo"]
                ++ "\n\t.intel_syntax noprefix"
            else String.join ["mov eax, 1 \n", "foo"])
        ++ "\n.popsection"
    ∧ global_piece_text [.SymFn "foo"] (.Str "x //y")
        = some (String.join ((rust_lines "x //y").map
            (fun line => strip_line_comment line ++ "\n")))
    ∧ strip_line_comment (String.mk ['a', ' ', '/', '/', 'b', '/', '/'])
        = String.mk (['a', ' ', '/', '/', 'b', '/', '/'].take 5)
    ∧ slash_pair_at ['a', ' ', '/', '/', 'b', '/', '/'] 5
    ∧ 2 ≤ 5 :=
  claim_C9 .X86_64 [.Str "mov eax, 1 // set\n", .Placeholder 0 none] [.SymFn "foo"]
    no_options ".pushsection .text\nmov eax, 1 \nfoo\n.popsection"
    ["mov eax, 1 \n", "foo"] "x //y" ['a', ' ', '/', '/', 'b', '/', '/'] 5 2
    rfl rfl rfl (by decide)

/-- Claim C10: a placeholder on an x86 general-register-class operand (reg or
reg_abcd) carrying no explicit modifier is emitted with a default
sub-register modifier — 'q' on x86_64 and 'k' on x86 — so its substitution is
`"%q<idx>"` or `"%k<idx>"` rather than the bare `"%<idx>"`. -/
theorem claim_C10 (att_dialect : Bool) (operands : List InlineAsmOperand)
    (outputs : List AsmOutOperand) (inputs : List AsmInOperand)
    (idx g : Nat) (cls : X86RegClass) (late : Bool) (place : Option Place)
    (hcls : cls = .reg ∨ cls = .reg_abcd)
    (hop : operands[idx]? = some (.Out (.RegClass cls) late place))
    (hpos : list_position (fun op => idx == op.rust_idx) outputs = some g) :
    modifier_to_gcc .X86_64 cls none = some (some 'q')
    ∧ modifier_to_gcc .X86 cls none = some (some 'k')
    ∧ pieceText .X86_64 att_dialect operands outputs inputs (.Placeholder idx none)
        = .ok ("%q" ++ toString g)
    ∧ pieceText .X86 att_dialect operands outputs inputs (.Placeholder idx none)
        = .ok ("%k" ++ toString g) := by
  cases hcls with
  | inl h1 =>
    subst h1
    refine ⟨rfl, rfl, ?_, ?_⟩
    · simp [pieceText, hop, InlineAsmRegOrRegClass.reg_class,
        placeholder_gcc_index, hpos, push_to_template]
      rfl
    · simp [pieceText, hop, InlineAsmRegOrRegClass.reg_class,
        placeholder_gcc_index, hpos, push_to_template]
      rfl
  | inr h1 =>
    subst h1
    refine ⟨rfl, rfl, ?_, ?_⟩
    · simp [pieceText, hop, InlineAsmRegOrRegClass.reg_class,
        placeholder_gcc_index, hpos, push_to_template]
      rfl
    · simp [pieceText, hop, InlineAsmRegOrRegClass.reg_class,
        placeholder_gcc_index, hpos, push_to_template]
      rfl

/-- Witness for claim C10 at a concrete input. -/
theorem claim_C10_witness :
    modifier_to_gcc .X86_64 .reg none = some (some 'q')
    ∧ modifier_to_gcc .X86 .reg none = some (some 'k')
    ∧ pieceText .X86_64 false [.Out (.RegClass .reg) false none]
        [⟨0, "r", false, false, 0, none⟩] [] (.Placeholder 0 none)
        = .ok ("%q" ++ toString 0)
    ∧ pieceText .X86 false [.Out (.RegClass .reg) false none]
        [⟨0, "r", false, false, 0, none⟩] [] (.Placeholder 0 none)
        = .ok ("%k" ++ toString 0) :=
  claim_C10 false [.Out (.RegClass .reg) false none]
    [⟨0, "r", false, false, 0, none⟩] [] 0 0 .reg false none
    (Or.inl rfl) rfl rfl
